import Mathlib

/-!
Verification of the jira_importer program (jira_importer.py).

The program is embedded shallowly:

* the configuration is a record of optional fields (the YAML file may omit
  any key; a missing key raises KeyError at the access site);
* the stories document is a record whose "epics" and "stories" lists may be
  absent (the code reads them with .get(..., [])');
* the remote tracker is abstracted as a `Client`: a pair of state-passing
  functions for the two remote calls the importer makes (JQL search and
  issue creation); a `none` result models a raised exception;
* every importer operation returns, besides its result and the new client
  state, the list of remote calls it made and the list of log events it
  emitted, so that claims about "no create call is issued" or "the key is
  logged" are statements about these traces;
* the command-line entry point `mainRun` returns the process exit code and
  a trace of which top-level action ran.

Two concrete clients instantiate the abstract one: `scriptClient` replays a
fixed list of scripted responses (used to exercise failure injection), and
`serverClient` is an in-memory model of the tracker where created issues
become searchable by project, issue-type id and summary substring (used for
the idempotence theorem).
-/

/-- Settings nested under the "jira" key of the YAML configuration.
Every field is optional: the code reads each key on demand and a missing
key raises KeyError at that point (jira_importer.py lines 44-50, 69, 98,
147, 158). -/
structure JiraSettings where
  url : Option String
  username : Option String
  api_token : Option String
  project_key : Option String
  epic_type_id : Option String
  story_type_id : Option String
deriving DecidableEq

/-- One story object of the stories JSON file: summary (required) and an
optional description (read with .get, line 109). -/
structure StoryData where
  summary : String
  description : Option String
deriving DecidableEq

/-- One epic object of the stories JSON file: summary (required), optional
description (line 81) and an optional "stories" list (read with
.get('stories', []), line 132). -/
structure EpicData where
  summary : String
  description : Option String
  stories : Option (List StoryData)
deriving DecidableEq

/-- The stories JSON document: an optional "epics" list (read with
.get('epics', []), line 129). -/
structure StoriesDoc where
  epics : Option (List EpicData)
deriving DecidableEq

/-- A remote issue as far as this tool observes it: its key and the three
attributes the dedup search matches on. -/
structure Issue where
  key : String
  project : String
  issuetype : String
  summary : String
deriving DecidableEq

/-- The three components of the dedup JQL query built at lines 69 and 98:
project = .. AND issuetype = .. AND summary ~ "..". -/
structure JqlQuery where
  project : String
  issuetype : String
  summaryPat : String
deriving DecidableEq

/-- The literal query string the code interpolates at lines 69 and 98. -/
def jqlString (q : JqlQuery) : String :=
  "project = " ++ q.project ++ " AND issuetype = " ++ q.issuetype ++
    " AND summary ~ \"" ++ q.summaryPat ++ "\""

/-- The payload handed to create_issue (lines 78-83 and 106-115):
project key, summary, description, issue-type id, and the optional epic
link written to customfield_10014. -/
structure IssueFields where
  project_key : String
  summary : String
  description : String
  issuetype_id : String
  epic_link : Option String
deriving DecidableEq

/-- A remote call made by the importer: a JQL search or an issue creation. -/
inductive Call where
  | search (q : JqlQuery)
  | create (fields : IssueFields)
deriving DecidableEq

/-- Log events emitted by _create_epic and _create_story (logger.info and
logger.error calls at lines 74, 87, 91, 102, 118, 122). -/
inductive LogEvent where
  | foundEpic (key : String)
  | createdEpic (key : String)
  | epicError
  | storyExists (key : String)
  | createdStory (key : String)
  | storyError
deriving DecidableEq

/-- The remote tracker as the importer sees it: a state-passing search and
a state-passing create. A `none` first component models the call raising
an exception. -/
structure Client (σ : Type) where
  jqlFn : σ → JqlQuery → Option (List Issue) × σ
  createFn : σ → IssueFields → Option String × σ

/-- Result of running one importer operation: its return value, the client
state afterwards, the remote calls made and the log events emitted. -/
structure RunOut (α : Type) (σ : Type) where
  res : α
  st : σ
  calls : List Call
  logs : List LogEvent
deriving DecidableEq

/-- Python truthiness of an Optional[str]: None and the empty string are
falsy. Used for the two `if epic_key:` tests at lines 114 and 131. -/
def truthy : Option String → Bool
  | none => false
  | some s => !(s.isEmpty)

/-- JiraImporter._create_epic (lines 65-92). Reads project_key and
epic_type_id while interpolating the JQL string; a missing key raises
KeyError, which the blanket except catches, logging an error and returning
None with no remote call made. Otherwise: search; a non-empty issues list
short-circuits to the first match key; an empty one leads to create_issue;
an exception from either call yields None. -/
def createEpic {σ : Type} (cl : Client σ) (cfg : JiraSettings) (e : EpicData) (s : σ) :
    RunOut (Option String) σ :=
  match cfg.project_key, cfg.epic_type_id with
  | some pk, some tid =>
    let q : JqlQuery := ⟨pk, tid, e.summary⟩
    match cl.jqlFn s q with
    | (none, s1) => ⟨none, s1, [Call.search q], [LogEvent.epicError]⟩
    | (some issues, s1) =>
      match issues with
      | i :: _ => ⟨some i.key, s1, [Call.search q], [LogEvent.foundEpic i.key]⟩
      | [] =>
        let fields : IssueFields := ⟨pk, e.summary, e.description.getD "", tid, none⟩
        match cl.createFn s1 fields with
        | (none, s2) =>
          ⟨none, s2, [Call.search q, Call.create fields], [LogEvent.epicError]⟩
        | (some key, s2) =>
          ⟨some key, s2, [Call.search q, Call.create fields], [LogEvent.createdEpic key]⟩
  | _, _ => ⟨none, s, [], [LogEvent.epicError]⟩

/-- JiraImporter._create_story (lines 94-123). Same shape as createEpic
but reads story_type_id, returns a Bool, treats a non-empty search result
as success, and writes the epic link into customfield_10014 only when the
passed epic_key is truthy (line 114). -/
def createStory {σ : Type} (cl : Client σ) (cfg : JiraSettings) (st : StoryData)
    (epicKey : Option String) (s : σ) : RunOut Bool σ :=
  match cfg.project_key, cfg.story_type_id with
  | some pk, some tid =>
    let q : JqlQuery := ⟨pk, tid, st.summary⟩
    match cl.jqlFn s q with
    | (none, s1) => ⟨false, s1, [Call.search q], [LogEvent.storyError]⟩
    | (some issues, s1) =>
      match issues with
      | i :: _ => ⟨true, s1, [Call.search q], [LogEvent.storyExists i.key]⟩
      | [] =>
        let fields : IssueFields :=
          ⟨pk, st.summary, st.description.getD "", tid,
            if truthy epicKey then epicKey else none⟩
        match cl.createFn s1 fields with
        | (none, s2) =>
          ⟨false, s2, [Call.search q, Call.create fields], [LogEvent.storyError]⟩
        | (some key, s2) =>
          ⟨true, s2, [Call.search q, Call.create fields], [LogEvent.createdStory key]⟩
  | _, _ => ⟨false, s, [], [LogEvent.storyError]⟩

/-- The inner loop of import_stories (lines 132-133): create every story
of the list in order, ignoring each story result. -/
def runStories {σ : Type} (cl : Client σ) (cfg : JiraSettings) (sts : List StoryData)
    (epicKey : Option String) (s : σ) : RunOut Unit σ :=
  match sts with
  | [] => ⟨(), s, [], []⟩
  | st :: rest =>
    let r := createStory cl cfg st epicKey s
    let r2 := runStories cl cfg rest epicKey r.st
    ⟨(), r2.st, r.calls ++ r2.calls, r.logs ++ r2.logs⟩

/-- The body of the epic loop of import_stories (lines 130-133): create
the epic; only when the returned key is truthy, run its stories with that
key. -/
def importEpic {σ : Type} (cl : Client σ) (cfg : JiraSettings) (e : EpicData) (s : σ) :
    RunOut Unit σ :=
  let r := createEpic cl cfg e s
  if truthy r.res then
    let r2 := runStories cl cfg (e.stories.getD []) r.res r.st
    ⟨(), r2.st, r.calls ++ r2.calls, r.logs ++ r2.logs⟩
  else ⟨(), r.st, r.calls, r.logs⟩

/-- The epic loop of import_stories (line 129). -/
def runEpics {σ : Type} (cl : Client σ) (cfg : JiraSettings) (es : List EpicData) (s : σ) :
    RunOut Unit σ :=
  match es with
  | [] => ⟨(), s, [], []⟩
  | e :: rest =>
    let r := importEpic cl cfg e s
    let r2 := runEpics cl cfg rest r.st
    ⟨(), r2.st, r.calls ++ r2.calls, r.logs ++ r2.logs⟩

/-- JiraImporter.import_stories (lines 125-133) after the stories document
has been loaded: iterate the "epics" list, defaulting to empty when the key
is absent. -/
def importStories {σ : Type} (cl : Client σ) (cfg : JiraSettings) (doc : StoriesDoc) (s : σ) :
    RunOut Unit σ :=
  runEpics cl cfg (doc.epics.getD []) s

/-- Does a remote call create an issue? -/
def isCreate : Call → Bool
  | Call.create _ => true
  | Call.search _ => false

/-- The create payloads occurring in a call trace, in order. -/
def createCalls (tr : List Call) : List IssueFields :=
  tr.filterMap fun c =>
    match c with
    | Call.create f => some f
    | Call.search _ => none

/-- Is pat a prefix of hay, character by character? -/
def charsPrefixOf : List Char → List Char → Bool
  | [], _ => true
  | _ :: _, [] => false
  | a :: as, b :: bs => a == b && charsPrefixOf as bs

/-- Does hay contain pat as a contiguous run of characters? -/
def charsContains : List Char → List Char → Bool
  | [], pat => charsPrefixOf pat []
  | c :: t, pat => charsPrefixOf pat (c :: t) || charsContains t pat

/-- Substring containment on strings: the semantics of the JQL operator
summary ~ "pat" used by the dedup searches. -/
def strContains (hay pat : String) : Bool :=
  charsContains hay.data pat.data

/-- Python str.startswith on strings. -/
def pyStartsWith (s pre : String) : Bool :=
  charsPrefixOf pre.data s.data

/-- Does a remote issue match a dedup query: same project, same issue-type
id, and the query pattern occurs inside the issue summary. -/
def matchesQuery (q : JqlQuery) (i : Issue) : Bool :=
  i.project == q.project && i.issuetype == q.issuetype &&
    strContains i.summary q.summaryPat

/-- In-memory model of the remote tracker: the stored issues in creation
order and a counter for fresh keys. -/
structure ServerState where
  issues : List Issue
  nextId : Nat
deriving DecidableEq

/-- Fresh issue key generated by the server model. -/
def freshKey (n : Nat) : String := "NEW-" ++ toString n

/-- The server-model client: search returns every stored issue matching the
query, in storage order; create appends a new issue with a fresh key and
returns that key. Both calls always succeed. -/
def serverClient : Client ServerState where
  jqlFn := fun s q => (some (s.issues.filter (matchesQuery q)), s)
  createFn := fun s f =>
    (some (freshKey s.nextId),
     ⟨s.issues ++ [⟨freshKey s.nextId, f.project_key, f.issuetype_id, f.summary⟩],
      s.nextId + 1⟩)

/-- A scripted response of the replay client. -/
inductive Resp where
  | issues (l : List Issue)
  | created (key : String)
  | exn
deriving DecidableEq

/-- Replay client: consumes a fixed script of responses one call at a
time; an exn entry (or an exhausted or mismatched script) models the call
raising an exception. -/
def scriptClient : Client (List Resp) where
  jqlFn := fun s _ =>
    match s with
    | Resp.issues l :: rest => (some l, rest)
    | Resp.created _ :: rest => (none, rest)
    | Resp.exn :: rest => (none, rest)
    | [] => (none, [])
  createFn := fun s _ =>
    match s with
    | Resp.created k :: rest => (some k, rest)
    | Resp.issues _ :: rest => (none, rest)
    | Resp.exn :: rest => (none, rest)
    | [] => (none, [])

/-- The URL handed to the Jira constructor (line 44): the configured value
with https:// always prepended. -/
def clientUrl (configuredUrl : String) : String := "https://" ++ configuredUrl

/-- The base URL built by print_metadata for the raw issue-type endpoint
(lines 158-160): the scheme is prepended only when the configured value
does not already start with "http". -/
def metadataServerUrl (configuredUrl : String) : String :=
  if pyStartsWith configuredUrl "http" then configuredUrl
  else "https://" ++ configuredUrl

/-- Does _init_jira_client (lines 40-54) succeed? It reads url, username
and api_token; a missing one raises KeyError, caught by the except, which
exits 1. ctorOk models the Jira constructor itself not raising. -/
def initClientOk (cfg : JiraSettings) (ctorOk : Bool) : Bool :=
  match cfg.url, cfg.username, cfg.api_token with
  | some _, some _, some _ => ctorOk
  | _, _, _ => false

/-- A project as returned by the project listing. -/
structure ProjectInfo where
  key : String
  name : String
  id : String
deriving DecidableEq

/-- An issue type as returned by the raw issue-type endpoint. -/
structure IssueTypeInfo where
  id : String
  name : String
  subtask : Bool
deriving DecidableEq

/-- A field as returned by the field listing. -/
structure FieldInfo where
  id : String
  name : String
  schemaType : Option String
deriving DecidableEq

/-- The remote responses observed in metadata mode. none models the fetch
raising; for the raw issue-type endpoint a some carries the HTTP status
code and the decoded body. -/
structure MetaEnv where
  projects : Option (List ProjectInfo)
  issueTypesResp : Option (Nat × List IssueTypeInfo)
  fields : Option (List FieldInfo)
deriving DecidableEq

/-- JiraImporter.print_metadata (lines 135-185), reduced to its exit
behaviour: 1 when the enclosing try fails and sys.exit(1) runs, 0 when the
method returns normally. The project listing raising is fatal; when the
configured project key is absent or matches no listed project the detail
sections are skipped and the method returns; reading the url key can
itself raise KeyError (line 158); the raw issue-type request raising is
fatal, but a non-success HTTP status only logs a warning (lines 168-169);
the field listing raising is fatal. -/
def printMetadata (cfg : JiraSettings) (m : MetaEnv) : Nat :=
  match m.projects with
  | none => 1
  | some projs =>
    match cfg.project_key with
    | none => 0
    | some pk =>
      match projs.find? (fun p => p.key == pk) with
      | none => 0
      | some _ =>
        match cfg.url with
        | none => 1
        | some _ =>
          match m.issueTypesResp with
          | none => 1
          | some _ =>
            match m.fields with
            | none => 1
            | some _ => 0

/-- Parsed command line: the config path, the optional stories path, and
the --metadata flag. -/
structure Args where
  config : String
  stories : Option String
  metadata : Bool
deriving DecidableEq

/-- An invocation as main (lines 187-209) distinguishes it: no argument
beyond the program name (len(sys.argv) < 2), or a successfully parsed
argument list. -/
inductive CmdLine where
  | empty
  | parsed (a : Args)
deriving DecidableEq

/-- The top-level actions main can take after initialization. -/
inductive MainEvent where
  | printedUsage
  | ranMetadata
  | ranImport (storiesFile : String)
  | printedHelp
deriving DecidableEq

/-- The process environment for one run of main: what loading each config
path yields (none = unreadable or unparseable YAML), whether the Jira
constructor succeeds, what loading each stories path yields (none =
unreadable or unparseable JSON, which _load_stories answers with
sys.exit(1)), and the metadata-mode responses. -/
structure Env where
  loadConfig : String → Option JiraSettings
  ctorOk : Bool
  loadStories : String → Option StoriesDoc
  meta : MetaEnv

/-- main (lines 187-209), reduced to the exit code and the action trace:
usage plus exit 1 on an empty argument list; exit 1 when the config cannot
be loaded or the client cannot be initialized; then the --metadata branch
takes precedence over the stories argument; the import branch exits 1 only
when the stories file cannot be loaded (import_stories reaches sys.exit(1)
inside _load_stories) and 0 otherwise, whatever the individual epic and
story outcomes; with neither stories nor --metadata, help is printed and
the exit code is 1. -/
def mainRun (cmd : CmdLine) (env : Env) : Nat × List MainEvent :=
  match cmd with
  | CmdLine.empty => (1, [MainEvent.printedUsage])
  | CmdLine.parsed a =>
    match env.loadConfig a.config with
    | none => (1, [])
    | some cfg =>
      if initClientOk cfg env.ctorOk then
        if a.metadata then (printMetadata cfg env.meta, [MainEvent.ranMetadata])
        else
          match a.stories with
          | some sf =>
            match env.loadStories sf with
            | none => (1, [MainEvent.ranImport sf])
            | some _ => (0, [MainEvent.ranImport sf])
          | none => (1, [MainEvent.printedHelp])
      else (1, [])

/-- A fully populated configuration, as in the scenario of the spec. -/
def cfgFull : JiraSettings :=
  ⟨some "jira.example.com", some "alice", some "secret",
   some "PROJ", some "10000", some "10001"⟩

/-- The same configuration with project_key absent. -/
def cfgNoProjectKey : JiraSettings :=
  ⟨some "jira.example.com", some "alice", some "secret",
   none, some "10000", some "10001"⟩

/-- A story, an epic holding it, and the one-epic document of the spec
scenario. -/
def storyOne : StoryData := ⟨"Story 1", none⟩

/-- An epic with one story. -/
def epicA : EpicData := ⟨"Epic A", none, some [storyOne]⟩

/-- The one-epic stories document. -/
def docA : StoriesDoc := ⟨some [epicA]⟩

/-- Two remote epics matching the Epic A dedup search, and a remote story. -/
def issueE1 : Issue := ⟨"PROJ-1", "PROJ", "10000", "Epic A"⟩

/-- A second matching remote epic, later in the search response. -/
def issueE2 : Issue := ⟨"PROJ-2", "PROJ", "10000", "Epic A v2"⟩

/-- A remote story issue matching the Story 1 dedup search. -/
def issueS1 : Issue := ⟨"PROJ-3", "PROJ", "10001", "Story 1"⟩

/-- Metadata responses where everything succeeds. -/
def metaOK : MetaEnv := ⟨some [⟨"PROJ", "Project", "1"⟩], some (200, []), some []⟩

/-- Metadata responses where the raw issue-type endpoint answers 500. -/
def meta500 : MetaEnv := ⟨some [⟨"PROJ", "Project", "1"⟩], some (500, []), some []⟩

/-- An environment where every load and every remote call succeeds. -/
def envOK : Env := ⟨fun _ => some cfgFull, true, fun _ => some docA, metaOK⟩

/-- As envOK but the configuration lacks project_key. -/
def envNoPk : Env := ⟨fun _ => some cfgNoProjectKey, true, fun _ => some docA, metaOK⟩

/-- As envOK but the raw issue-type endpoint answers 500. -/
def env500 : Env := ⟨fun _ => some cfgFull, true, fun _ => some docA, meta500⟩

/-- Claim C4 as stated: the exit code is 1 exactly when the argument list
is empty, the config cannot be loaded, the client cannot be initialized,
or a metadata fetch fails; every other run exits 0. -/
def claimC4 : Prop :=
  ∀ (cmd : CmdLine) (env : Env),
    (mainRun cmd env).1 = 1 ↔
      (cmd = CmdLine.empty
        ∨ (∃ a, cmd = CmdLine.parsed a ∧ env.loadConfig a.config = none)
        ∨ (∃ a cfg, cmd = CmdLine.parsed a ∧ env.loadConfig a.config = some cfg ∧
            initClientOk cfg env.ctorOk = false)
        ∨ (∃ a cfg, cmd = CmdLine.parsed a ∧ env.loadConfig a.config = some cfg ∧
            initClientOk cfg env.ctorOk = true ∧ a.metadata = true ∧
            printMetadata cfg env.meta = 1))

/-- Claim C5 as stated: in metadata mode every fetch failure is fatal,
including the raw issue-type endpoint answering a non-success HTTP status:
whenever the run reaches that request and the status is not 200, the
process exits non-zero. -/
def claimC5 : Prop :=
  ∀ (cfg : JiraSettings) (m : MetaEnv) (projs : List ProjectInfo) (pk : String)
    (p : ProjectInfo) (stc : Nat) (body : List IssueTypeInfo),
    m.projects = some projs → cfg.project_key = some pk →
    projs.find? (fun q => q.key == pk) = some p → cfg.url ≠ none →
    m.issueTypesResp = some (stc, body) → stc ≠ 200 →
    printMetadata cfg m ≠ 0

/-- Claim C6 as stated: the https scheme is prefixed onto the client base
URL only when the configured url carries no scheme; a url already starting
with a scheme reaches the client unchanged. -/
def claimC6 : Prop :=
  ∀ u : String, pyStartsWith u "http" = true → clientUrl u = u

/-- Claim C7 as stated: the absence of any of the six settings is fatal:
whatever else happens, a run whose loaded configuration misses one of them
exits non-zero. -/
def claimC7 : Prop :=
  ∀ (a : Args) (env : Env) (cfg : JiraSettings),
    env.loadConfig a.config = some cfg →
    (cfg.url = none ∨ cfg.username = none ∨ cfg.api_token = none ∨
      cfg.project_key = none ∨ cfg.epic_type_id = none ∨ cfg.story_type_id = none) →
    (mainRun (CmdLine.parsed a) env).1 ≠ 0

/-- State extension in the server model: the later state stores every
issue of the earlier one, at the same positions, plus possibly more at the
end. Every server-model operation only appends issues. -/
def serverLe (s s' : ServerState) : Prop :=
  ∃ extra, s'.issues = s.issues ++ extra

/-- A story is settled in a server state: whenever the configured keys
read by _create_story are present, the story dedup search already finds at
least one issue. -/
def storySafe (cfg : JiraSettings) (st : StoryData) (s : ServerState) : Prop :=
  ∀ pk stt, cfg.project_key = some pk → cfg.story_type_id = some stt →
    s.issues.filter (matchesQuery ⟨pk, stt, st.summary⟩) ≠ []

/-- An epic is settled in a server state: whenever the configured keys
read by _create_epic are present, the epic dedup search finds a first
issue, and if the key of that first issue is truthy then every story of
the epic is settled as well. -/
def epicSafe (cfg : JiraSettings) (e : EpicData) (s : ServerState) : Prop :=
  ∀ pk et, cfg.project_key = some pk → cfg.epic_type_id = some et →
    ∃ i rest, s.issues.filter (matchesQuery ⟨pk, et, e.summary⟩) = i :: rest ∧
      (truthy (some i.key) = true → ∀ st ∈ e.stories.getD [], storySafe cfg st s)

theorem charsPrefixOf_self (l : List Char) : charsPrefixOf l l = true := by
  induction l with
  | nil => rfl
  | cons a t ih => simp [charsPrefixOf, ih]

theorem strContains_self (s : String) : strContains s s = true := by
  unfold strContains
  cases h : s.data with
  | nil => rfl
  | cons a t => simp [charsContains, charsPrefixOf_self]

/-- C6: the claim that the client URL is prefixed only when the configured
url lacks a scheme is false: line 44 prepends https:// unconditionally, so
a url that already starts with a scheme is prefixed a second time. -/
theorem clientUrl_not_conditional : ¬ claimC6 := by
  intro h
  have h2 := h "https://jira.example.com" (by decide)
  have h3 : clientUrl "https://jira.example.com" ≠ "https://jira.example.com" := by decide
  exact h3 h2

/-- C6 (amended): the URL bound into the Jira client is always the
configured value with https:// prepended, whether or not it already
carries a scheme; only the metadata reporter (lines 158-160) prepends the
scheme conditionally, for its raw issue-type endpoint URL. -/
theorem clientUrl_always_prefixes (u : String) :
    clientUrl u = "https://" ++ u ∧
    (pyStartsWith u "http" = true → metadataServerUrl u = u) ∧
    (pyStartsWith u "http" = false → metadataServerUrl u = "https://" ++ u) := by
  refine ⟨rfl, ?_, ?_⟩ <;> intro h <;> simp [metadataServerUrl, h]

/-- Witness for the amended C6 at the configured url
"https://jira.example.com". -/
theorem clientUrl_always_prefixes_witness :
    clientUrl "https://jira.example.com" = "https://" ++ "https://jira.example.com" ∧
    metadataServerUrl "https://jira.example.com" = "https://jira.example.com" :=
  ⟨(clientUrl_always_prefixes "https://jira.example.com").1,
   (clientUrl_always_prefixes "https://jira.example.com").2.1 (by decide)⟩

/-- C9: when a dedup search returns more than one issue, the first one in
the response is used: _create_epic returns the first match key, and
_create_story logs the first match key and reports success, whatever comes
later in the list. -/
theorem first_match_used {σ : Type} (cl : Client σ) (cfg : JiraSettings)
    (pk et stt : String) (e : EpicData) (st : StoryData) (ek : Option String)
    (s s1 s2 : σ) (i j : Issue) (restE restS : List Issue)
    (hpk : cfg.project_key = some pk) (het : cfg.epic_type_id = some et)
    (hst : cfg.story_type_id = some stt)
    (hes : cl.jqlFn s ⟨pk, et, e.summary⟩ = (some (i :: restE), s1))
    (hss : cl.jqlFn s ⟨pk, stt, st.summary⟩ = (some (j :: restS), s2)) :
    createEpic cl cfg e s =
      ⟨some i.key, s1, [Call.search ⟨pk, et, e.summary⟩], [LogEvent.foundEpic i.key]⟩ ∧
    createStory cl cfg st ek s =
      ⟨true, s2, [Call.search ⟨pk, stt, st.summary⟩], [LogEvent.storyExists j.key]⟩ := by
  constructor
  · simp [createEpic, hpk, het, hes]
  · simp [createStory, hpk, hst, hss]

/-- Witness for C9: a search response carrying two matching epics; the
first key PROJ-1 is returned and logged. -/
theorem first_match_used_witness :
    createEpic scriptClient cfgFull epicA [Resp.issues [issueE1, issueE2]] =
      ⟨some "PROJ-1", [], [Call.search ⟨"PROJ", "10000", "Epic A"⟩],
        [LogEvent.foundEpic "PROJ-1"]⟩ ∧
    createStory scriptClient cfgFull storyOne none [Resp.issues [issueE1, issueE2]] =
      ⟨true, [], [Call.search ⟨"PROJ", "10001", "Story 1"⟩],
        [LogEvent.storyExists "PROJ-1"]⟩ :=
  first_match_used scriptClient cfgFull "PROJ" "10000" "10001" epicA storyOne none
    [Resp.issues [issueE1, issueE2]] [] [] issueE1 issueE1 [issueE2] [issueE2]
    rfl rfl rfl rfl rfl

/-- C10: an invocation supplying both a stories file and --metadata runs
only the metadata report: import_stories is never invoked, and when the
configuration loads and the client initializes the action trace is exactly
the metadata report. -/
theorem metadata_takes_precedence (a : Args) (env : Env) (sf : String)
    (hs : a.stories = some sf) (hm : a.metadata = true) :
    (∀ f, MainEvent.ranImport f ∉ (mainRun (CmdLine.parsed a) env).2) ∧
    (∀ cfg, env.loadConfig a.config = some cfg →
      initClientOk cfg env.ctorOk = true →
      (mainRun (CmdLine.parsed a) env).2 = [MainEvent.ranMetadata]) := by
  constructor
  · intro f
    cases hc : env.loadConfig a.config with
    | none => simp [mainRun, hc]
    | some cfg =>
      cases hi : initClientOk cfg env.ctorOk with
      | false => simp [mainRun, hc, hi]
      | true => simp [mainRun, hc, hi, hm]
  · intro cfg hc hi
    simp [mainRun, hc, hi, hm]

/-- Witness for C10: the invocation config.yaml stories.json --metadata
against the all-success environment runs exactly the metadata report. -/
theorem metadata_takes_precedence_witness :
    MainEvent.ranImport "stories.json" ∉
      (mainRun (CmdLine.parsed ⟨"config.yaml", some "stories.json", true⟩) envOK).2 ∧
    (mainRun (CmdLine.parsed ⟨"config.yaml", some "stories.json", true⟩) envOK).2 =
      [MainEvent.ranMetadata] :=
  ⟨(metadata_takes_precedence ⟨"config.yaml", some "stories.json", true⟩ envOK
      "stories.json" rfl rfl).1 "stories.json",
   (metadata_takes_precedence ⟨"config.yaml", some "stories.json", true⟩ envOK
      "stories.json" rfl rfl).2 cfgFull rfl rfl⟩

/-- C5: the claim is false at the raw issue-type endpoint: a non-success
HTTP status there is only logged as a warning (lines 168-169) and the
metadata report continues and exits 0. Counterexample: a 500 status with
every other fetch succeeding. -/
theorem issue_type_status_not_fatal : ¬ claimC5 := by
  intro h
  exact h cfgFull meta500 [⟨"PROJ", "Project", "1"⟩] "PROJ" ⟨"PROJ", "Project", "1"⟩
    500 [] rfl rfl (by decide) (by simp [cfgFull]) rfl (by decide) (by decide)

/-- C5 (amended): in metadata mode the fatal failures are exactly: the
project listing raising; or, once the configured project key matches a
listed project, the url key being absent, the raw issue-type request
raising, or the field listing raising. A non-success HTTP status answered
by the raw issue-type endpoint is logged as a warning and skipped; the
report then exits 0 when the remaining fetches succeed. -/
theorem printMetadata_exit_iff (cfg : JiraSettings) (m : MetaEnv) :
    printMetadata cfg m = 1 ↔
      (m.projects = none ∨
        ∃ projs pk p, m.projects = some projs ∧ cfg.project_key = some pk ∧
          projs.find? (fun q => q.key == pk) = some p ∧
          (cfg.url = none ∨
            (cfg.url ≠ none ∧ m.issueTypesResp = none) ∨
            (cfg.url ≠ none ∧ m.issueTypesResp ≠ none ∧ m.fields = none))) := by
  cases hp : m.projects with
  | none => simp [printMetadata, hp]
  | some projs =>
    cases hpk : cfg.project_key with
    | none => simp [printMetadata, hp, hpk]
    | some pk =>
      cases hf : projs.find? (fun q => q.key == pk) with
      | none => simp [printMetadata, hp, hpk, hf]
      | some p =>
        cases hu : cfg.url with
        | none => simp [printMetadata, hp, hpk, hf, hu]
        | some u =>
          cases hit : m.issueTypesResp with
          | none => simp [printMetadata, hp, hpk, hf, hu, hit]
          | some it =>
            cases hfl : m.fields with
            | none => simp [printMetadata, hp, hpk, hf, hu, hit, hfl]
            | some fl => simp [printMetadata, hp, hpk, hf, hu, hit, hfl]

/-- C4: the claimed exit-code characterization is false: an invocation
that supplies a config argument but neither a stories file nor --metadata
loads the config, initializes the client, then prints help and exits 1,
outside every case the claim lists. -/
theorem exit_code_claim_false : ¬ claimC4 := by
  intro h
  have h2 := (h (CmdLine.parsed ⟨"config.yaml", none, false⟩) envOK).mp rfl
  rcases h2 with h2 | ⟨a, ha, hl⟩ | ⟨a, cfg, ha, hl, hi⟩ | ⟨a, cfg, ha, hl, hi, hm, hpm⟩
  · exact absurd h2 (by simp)
  · rw [CmdLine.parsed.injEq] at ha
    subst ha
    simp [envOK] at hl
  · rw [CmdLine.parsed.injEq] at ha
    subst ha
    simp [envOK] at hl
    subst hl
    simp [envOK, initClientOk, cfgFull] at hi
  · rw [CmdLine.parsed.injEq] at ha
    subst ha
    simp at hm

/-- C4 (amended): the exit code is 1 exactly when: the argument list is
empty; the config cannot be loaded; the client cannot be initialized; the
run is in metadata mode and the metadata report hits a fatal failure; the
config loads and the client initializes but neither a stories argument nor
--metadata was given (the help path, lines 207-209); or the run is in
the importing mode and the stories file cannot be loaded (sys.exit(1) inside
_load_stories). Individual epic and story failures leave the exit code 0. -/
theorem exit_code_characterization (cmd : CmdLine) (env : Env) :
    (mainRun cmd env).1 = 1 ↔
      (cmd = CmdLine.empty
        ∨ (∃ a, cmd = CmdLine.parsed a ∧ env.loadConfig a.config = none)
        ∨ (∃ a cfg, cmd = CmdLine.parsed a ∧ env.loadConfig a.config = some cfg ∧
            initClientOk cfg env.ctorOk = false)
        ∨ (∃ a cfg, cmd = CmdLine.parsed a ∧ env.loadConfig a.config = some cfg ∧
            initClientOk cfg env.ctorOk = true ∧ a.metadata = true ∧
            printMetadata cfg env.meta = 1)
        ∨ (∃ a cfg, cmd = CmdLine.parsed a ∧ env.loadConfig a.config = some cfg ∧
            initClientOk cfg env.ctorOk = true ∧ a.metadata = false ∧
            a.stories = none)
        ∨ (∃ a cfg sf, cmd = CmdLine.parsed a ∧ env.loadConfig a.config = some cfg ∧
            initClientOk cfg env.ctorOk = true ∧ a.metadata = false ∧
            a.stories = some sf ∧ env.loadStories sf = none)) := by
  cases cmd with
  | empty => simp [mainRun]
  | parsed a =>
    cases hc : env.loadConfig a.config with
    | none => simp [mainRun, hc]
    | some cfg =>
      cases hi : initClientOk cfg env.ctorOk with
      | false => simp [mainRun, hc, hi]
      | true =>
        cases hm : a.metadata with
        | true => simp [mainRun, hc, hi, hm]
        | false =>
          cases hs : a.stories with
          | none => simp [mainRun, hc, hi, hm, hs]
          | some sf =>
            cases hl : env.loadStories sf with
            | none => simp [mainRun, hc, hi, hm, hs, hl]
            | some d => simp [mainRun, hc, hi, hm, hs, hl]

/-- C7: the claim is false for project_key (and the two type ids): a
configuration missing project_key initializes the client fine, and in
the importing mode each epic creation catches a KeyError, logs an error and is
skipped, so the run completes with exit code 0 instead of terminating
fatally. -/
theorem missing_setting_not_always_fatal : ¬ claimC7 := by
  intro h
  exact h ⟨"config.yaml", some "stories.json", false⟩ envNoPk cfgNoProjectKey rfl
    (Or.inr (Or.inr (Or.inr (Or.inl rfl)))) (by decide)

/-- C7 (amended): absence of url, username or api_token is fatal at client
initialization (exit 1, before any tracker call); absence of project_key,
epic_type_id or story_type_id is not checked upfront: each epic or story
creation that reads the missing key fails inside its own try block with a
logged error, makes no remote call, is skipped, and an import run whose
stories file loads still exits 0. -/
theorem settings_absence_behavior :
    (∀ (a : Args) (env : Env) (cfg : JiraSettings),
      env.loadConfig a.config = some cfg →
      (cfg.url = none ∨ cfg.username = none ∨ cfg.api_token = none) →
      (mainRun (CmdLine.parsed a) env).1 = 1) ∧
    (∀ (σ : Type) (cl : Client σ) (cfg : JiraSettings) (e : EpicData) (s : σ),
      cfg.project_key = none ∨ cfg.epic_type_id = none →
      createEpic cl cfg e s = ⟨none, s, [], [LogEvent.epicError]⟩) ∧
    (∀ (σ : Type) (cl : Client σ) (cfg : JiraSettings) (st : StoryData)
        (ek : Option String) (s : σ),
      cfg.project_key = none ∨ cfg.story_type_id = none →
      createStory cl cfg st ek s = ⟨false, s, [], [LogEvent.storyError]⟩) ∧
    (∀ (a : Args) (env : Env) (cfg : JiraSettings) (sf : String) (doc : StoriesDoc),
      a.metadata = false → a.stories = some sf →
      env.loadConfig a.config = some cfg → initClientOk cfg env.ctorOk = true →
      env.loadStories sf = some doc → (mainRun (CmdLine.parsed a) env).1 = 0) := by
  refine ⟨?_, ?_, ?_, ?_⟩
  · intro a env cfg hc hmiss
    have hi : initClientOk cfg env.ctorOk = false := by
      rcases hmiss with h | h | h <;>
        cases hu : cfg.url <;> cases hn : cfg.username <;> cases ht : cfg.api_token <;>
          simp_all [initClientOk]
    simp [mainRun, hc, hi]
  · intro σ cl cfg e s hmiss
    rcases hmiss with h | h
    · simp [createEpic, h]
    · cases hpk : cfg.project_key <;> simp [createEpic, hpk, h]
  · intro σ cl cfg st ek s hmiss
    rcases hmiss with h | h
    · simp [createStory, h]
    · cases hpk : cfg.project_key <;> simp [createStory, hpk, h]
  · intro a env cfg sf doc hm hs hc hi hl
    simp [mainRun, hc, hi, hm, hs, hl]

/-- Witness for the amended C7: a missing url is fatal at init; a missing
project_key makes epic and story creation no-op failures while the import
run exits 0. -/
theorem settings_absence_behavior_witness :
    (mainRun (CmdLine.parsed ⟨"c.yaml", some "s.json", false⟩)
      ⟨fun _ => some ⟨none, some "alice", some "secret", some "PROJ", some "10000",
          some "10001"⟩, true, fun _ => some docA, metaOK⟩).1 = 1 ∧
    createEpic scriptClient cfgNoProjectKey epicA [] =
      ⟨none, [], [], [LogEvent.epicError]⟩ ∧
    createStory scriptClient cfgNoProjectKey storyOne none [] =
      ⟨false, [], [], [LogEvent.storyError]⟩ ∧
    (mainRun (CmdLine.parsed ⟨"c.yaml", some "s.json", false⟩) envNoPk).1 = 0 :=
  ⟨settings_absence_behavior.1 ⟨"c.yaml", some "s.json", false⟩
      ⟨fun _ => some ⟨none, some "alice", some "secret", some "PROJ", some "10000",
          some "10001"⟩, true, fun _ => some docA, metaOK⟩
      ⟨none, some "alice", some "secret", some "PROJ", some "10000", some "10001"⟩
      rfl (Or.inl rfl),
   settings_absence_behavior.2.1 (List Resp) scriptClient cfgNoProjectKey epicA []
      (Or.inl rfl),
   settings_absence_behavior.2.2.1 (List Resp) scriptClient cfgNoProjectKey storyOne
      none [] (Or.inl rfl),
   settings_absence_behavior.2.2.2 ⟨"c.yaml", some "s.json", false⟩ envNoPk
      cfgNoProjectKey "s.json" docA rfl rfl rfl rfl rfl⟩

/-- C8: a stories document without an "epics" key makes import_stories a
no-op issuing zero remote calls; an epic without a "stories" key
contributes only its epic-level calls; and such an import run exits 0. -/
theorem missing_lists_treated_empty {σ : Type} (cl : Client σ) (cfg : JiraSettings)
    (s : σ) (e : EpicData) (he : e.stories = none) :
    importStories cl cfg ⟨none⟩ s = ⟨(), s, [], []⟩ ∧
    importEpic cl cfg e s =
      ⟨(), (createEpic cl cfg e s).st, (createEpic cl cfg e s).calls,
        (createEpic cl cfg e s).logs⟩ ∧
    (∀ (a : Args) (env : Env) (cfg2 : JiraSettings) (sf : String),
      a.metadata = false → a.stories = some sf →
      env.loadConfig a.config = some cfg2 → initClientOk cfg2 env.ctorOk = true →
      env.loadStories sf = some ⟨none⟩ → (mainRun (CmdLine.parsed a) env).1 = 0) := by
  refine ⟨rfl, ?_, ?_⟩
  · cases ht : truthy (createEpic cl cfg e s).res with
    | false => simp [importEpic, ht]
    | true => simp [importEpic, ht, he, runStories]
  · intro a env cfg2 sf hm hs hc hi hl
    simp [mainRun, hc, hi, hm, hs, hl]

/-- Witness for C8: the empty-document no-op, an epic without stories, and
the exit code 0 of such a run. -/
theorem missing_lists_treated_empty_witness :
    importStories scriptClient cfgFull ⟨none⟩ [] = ⟨(), [], [], []⟩ ∧
    importEpic scriptClient cfgFull ⟨"Epic B", none, none⟩ [Resp.issues [issueE1]] =
      ⟨(), (createEpic scriptClient cfgFull ⟨"Epic B", none, none⟩
            [Resp.issues [issueE1]]).st,
        (createEpic scriptClient cfgFull ⟨"Epic B", none, none⟩
            [Resp.issues [issueE1]]).calls,
        (createEpic scriptClient cfgFull ⟨"Epic B", none, none⟩
            [Resp.issues [issueE1]]).logs⟩ ∧
    (mainRun (CmdLine.parsed ⟨"c.yaml", some "s.json", false⟩)
      ⟨fun _ => some cfgFull, true, fun _ => some ⟨none⟩, metaOK⟩).1 = 0 :=
  ⟨(missing_lists_treated_empty scriptClient cfgFull [] (⟨"Epic B", none, none⟩ : EpicData)
      rfl).1,
   (missing_lists_treated_empty scriptClient cfgFull [Resp.issues [issueE1]]
      (⟨"Epic B", none, none⟩ : EpicData) rfl).2.1,
   (missing_lists_treated_empty scriptClient cfgFull [] (⟨"Epic B", none, none⟩ : EpicData)
      rfl).2.2 ⟨"c.yaml", some "s.json", false⟩
      ⟨fun _ => some cfgFull, true, fun _ => some ⟨none⟩, metaOK⟩ cfgFull "s.json"
      rfl rfl rfl rfl rfl⟩

theorem createStory_link {σ : Type} (cl : Client σ) (cfg : JiraSettings) (st : StoryData)
    (ek : Option String) (s : σ) (hek : truthy ek = true) :
    ∀ f ∈ createCalls (createStory cl cfg st ek s).calls, f.epic_link = ek := by
  cases hpk : cfg.project_key with
  | none => simp [createStory, hpk, createCalls]
  | some pk =>
    cases hst : cfg.story_type_id with
    | none => simp [createStory, hpk, hst, createCalls]
    | some stt =>
      rcases hj : cl.jqlFn s ⟨pk, stt, st.summary⟩ with ⟨o, s1⟩
      cases o with
      | none => simp [createStory, hpk, hst, hj, createCalls]
      | some issues =>
        cases issues with
        | cons i t => simp [createStory, hpk, hst, hj, createCalls]
        | nil =>
          rcases hc : cl.createFn s1
              ⟨pk, st.summary, st.description.getD "", stt, ek⟩ with ⟨o2, s2⟩
          cases o2 with
          | none => simp [createStory, hpk, hst, hj, hek, hc, createCalls]
          | some key => simp [createStory, hpk, hst, hj, hek, hc, createCalls]

theorem runStories_link {σ : Type} (cl : Client σ) (cfg : JiraSettings)
    (sts : List StoryData) (ek : Option String) (hek : truthy ek = true) :
    ∀ s, ∀ f ∈ createCalls (runStories cl cfg sts ek s).calls, f.epic_link = ek := by
  induction sts with
  | nil => intro s f hf; simp [runStories, createCalls] at hf
  | cons st rest ih =>
    intro s f hf
    simp only [runStories, createCalls, List.filterMap_append, List.mem_append] at hf
    rcases hf with hf | hf
    · exact createStory_link cl cfg st ek s hek f hf
    · exact ih (createStory cl cfg st ek s).st f hf

/-- C2: when the epic dedup search answers with at least one issue,
_create_epic issues no create call and returns the first discovered key,
and every issue created while importing that epic (its stories) carries
that key in the epic-link field customfield_10014. -/
theorem epic_found_reuses_key {σ : Type} (cl : Client σ) (cfg : JiraSettings)
    (e : EpicData) (s s1 : σ) (pk et : String) (i : Issue) (rest : List Issue)
    (hpk : cfg.project_key = some pk) (het : cfg.epic_type_id = some et)
    (hsearch : cl.jqlFn s ⟨pk, et, e.summary⟩ = (some (i :: rest), s1)) :
    createEpic cl cfg e s =
      ⟨some i.key, s1, [Call.search ⟨pk, et, e.summary⟩], [LogEvent.foundEpic i.key]⟩ ∧
    ∀ f ∈ createCalls (importEpic cl cfg e s).calls, f.epic_link = some i.key := by
  have hce : createEpic cl cfg e s =
      ⟨some i.key, s1, [Call.search ⟨pk, et, e.summary⟩], [LogEvent.foundEpic i.key]⟩ := by
    simp [createEpic, hpk, het, hsearch]
  refine ⟨hce, ?_⟩
  intro f hf
  unfold importEpic at hf
  rw [hce] at hf
  cases ht : truthy (some i.key) with
  | false => simp [ht, createCalls] at hf
  | true =>
    simp only [ht, if_true, createCalls, List.filterMap_cons, List.filterMap_append,
      List.mem_append] at hf
    rcases hf with hf | hf
    · exact absurd hf (by simp)
    · exact runStories_link cl cfg (e.stories.getD []) (some i.key) ht s1 f (by
        simpa [createCalls] using hf)

/-- Witness for C2: a search response with two matches; the first key
PROJ-1 is returned, and no create call of the epic import carries another
link. -/
theorem epic_found_reuses_key_witness :
    createEpic scriptClient cfgFull epicA [Resp.issues [issueE1, issueE2]] =
      ⟨some "PROJ-1", [], [Call.search ⟨"PROJ", "10000", "Epic A"⟩],
        [LogEvent.foundEpic "PROJ-1"]⟩ ∧
    ∀ f ∈ createCalls
        (importEpic scriptClient cfgFull epicA [Resp.issues [issueE1, issueE2]]).calls,
      f.epic_link = some "PROJ-1" :=
  epic_found_reuses_key scriptClient cfgFull epicA [Resp.issues [issueE1, issueE2]] []
    "PROJ" "10000" issueE1 [issueE2] rfl rfl rfl

/-- C3: when the epic-creation step fails (_create_epic returns None), the
epic import makes exactly the epic-level calls and touches no story; the
epic loop always decomposes over list concatenation, so every later epic
is still processed from the state the failure left; and the story loop
always continues past any single story, so a story failure stops neither
its siblings nor later epics. -/
theorem epic_failure_isolation {σ : Type} (cl : Client σ) (cfg : JiraSettings)
    (e : EpicData) (s : σ) (h : (createEpic cl cfg e s).res = none) :
    (importEpic cl cfg e s =
      ⟨(), (createEpic cl cfg e s).st, (createEpic cl cfg e s).calls,
        (createEpic cl cfg e s).logs⟩) ∧
    (∀ c ∈ (createEpic cl cfg e s).calls,
      ∃ pk et, cfg.project_key = some pk ∧ cfg.epic_type_id = some et ∧
        (c = Call.search ⟨pk, et, e.summary⟩ ∨
          c = Call.create ⟨pk, e.summary, e.description.getD "", et, none⟩)) ∧
    (∀ (es1 es2 : List EpicData) (s0 : σ),
      runEpics cl cfg (es1 ++ es2) s0 =
        ⟨(), (runEpics cl cfg es2 (runEpics cl cfg es1 s0).st).st,
          (runEpics cl cfg es1 s0).calls ++
            (runEpics cl cfg es2 (runEpics cl cfg es1 s0).st).calls,
          (runEpics cl cfg es1 s0).logs ++
            (runEpics cl cfg es2 (runEpics cl cfg es1 s0).st).logs⟩) ∧
    (∀ (st : StoryData) (rest : List StoryData) (ek : Option String) (s0 : σ),
      runStories cl cfg (st :: rest) ek s0 =
        ⟨(), (runStories cl cfg rest ek (createStory cl cfg st ek s0).st).st,
          (createStory cl cfg st ek s0).calls ++
            (runStories cl cfg rest ek (createStory cl cfg st ek s0).st).calls,
          (createStory cl cfg st ek s0).logs ++
            (runStories cl cfg rest ek (createStory cl cfg st ek s0).st).logs⟩) := by
  refine ⟨?_, ?_, ?_, ?_⟩
  · simp [importEpic, h, truthy]
  · intro c hc
    cases hpk : cfg.project_key with
    | none => simp [createEpic, hpk] at hc
    | some pk =>
      cases het : cfg.epic_type_id with
      | none => simp [createEpic, hpk, het] at hc
      | some et =>
        refine ⟨pk, et, rfl, rfl, ?_⟩
        rcases hj : cl.jqlFn s ⟨pk, et, e.summary⟩ with ⟨o, s1⟩
        cases o with
        | none =>
          simp [createEpic, hpk, het, hj] at hc
          exact Or.inl hc
        | some issues =>
          cases issues with
          | cons i t =>
            simp [createEpic, hpk, het, hj] at hc
            exact Or.inl hc
          | nil =>
            rcases hcr : cl.createFn s1 ⟨pk, e.summary, e.description.getD "", et, none⟩
              with ⟨o2, s2⟩
            cases o2 with
            | none =>
              simp [createEpic, hpk, het, hj, hcr] at hc
              rcases hc with hc | hc
              · exact Or.inl hc
              · exact Or.inr hc
            | some key =>
              simp [createEpic, hpk, het, hj, hcr] at hc
              rcases hc with hc | hc
              · exact Or.inl hc
              · exact Or.inr hc
  · intro es1 es2 s0
    induction es1 generalizing s0 with
    | nil => simp [runEpics]
    | cons e1 t ih =>
      simp only [List.cons_append, runEpics, List.append_eq, ih, List.append_assoc]
  · intro st rest ek s0
    rfl

/-- Witness for C3 at a script whose first response raises: the whole
epic import reduces to the failed epic step alone. -/
theorem epic_failure_isolation_witness :
    importEpic scriptClient cfgFull epicA [Resp.exn] =
      ⟨(), (createEpic scriptClient cfgFull epicA [Resp.exn]).st,
        (createEpic scriptClient cfgFull epicA [Resp.exn]).calls,
        (createEpic scriptClient cfgFull epicA [Resp.exn]).logs⟩ ∧
    runEpics scriptClient cfgFull ([epicA] ++ [epicA]) [Resp.exn] =
      ⟨(), (runEpics scriptClient cfgFull [epicA]
          ((runEpics scriptClient cfgFull [epicA] [Resp.exn]).st)).st,
        (runEpics scriptClient cfgFull [epicA] [Resp.exn]).calls ++
          (runEpics scriptClient cfgFull [epicA]
            ((runEpics scriptClient cfgFull [epicA] [Resp.exn]).st)).calls,
        (runEpics scriptClient cfgFull [epicA] [Resp.exn]).logs ++
          (runEpics scriptClient cfgFull [epicA]
            ((runEpics scriptClient cfgFull [epicA] [Resp.exn]).st)).logs⟩ :=
  ⟨(epic_failure_isolation scriptClient cfgFull epicA [Resp.exn] (by decide)).1,
   (epic_failure_isolation scriptClient cfgFull epicA [Resp.exn] (by decide)).2.2.1
     [epicA] [epicA] [Resp.exn]⟩

theorem serverLe_refl (s : ServerState) : serverLe s s :=
  ⟨[], by simp⟩

theorem serverLe_trans {s1 s2 s3 : ServerState} (h1 : serverLe s1 s2)
    (h2 : serverLe s2 s3) : serverLe s1 s3 := by
  rcases h1 with ⟨a, ha⟩
  rcases h2 with ⟨b, hb⟩
  exact ⟨a ++ b, by rw [hb, ha, List.append_assoc]⟩

theorem filter_head_mono {s s' : ServerState} {p : Issue → Bool} {i : Issue}
    {rest : List Issue} (hle : serverLe s s') (h : s.issues.filter p = i :: rest) :
    ∃ r', s'.issues.filter p = i :: r' := by
  rcases hle with ⟨extra, he⟩
  exact ⟨rest ++ extra.filter p, by rw [he, List.filter_append, h, List.cons_append]⟩

theorem filter_ne_mono {s s' : ServerState} {p : Issue → Bool}
    (hle : serverLe s s') (h : s.issues.filter p ≠ []) : s'.issues.filter p ≠ [] := by
  rcases hle with ⟨extra, he⟩
  rw [he, List.filter_append]
  intro hc
  exact h (List.append_eq_nil.mp hc).1

theorem storySafe_mono {cfg : JiraSettings} {st : StoryData} {s s' : ServerState}
    (h : storySafe cfg st s) (hle : serverLe s s') : storySafe cfg st s' := by
  intro pk stt hpk hst
  exact filter_ne_mono hle (h pk stt hpk hst)

theorem epicSafe_mono {cfg : JiraSettings} {e : EpicData} {s s' : ServerState}
    (h : epicSafe cfg e s) (hle : serverLe s s') : epicSafe cfg e s' := by
  intro pk et hpk het
  rcases h pk et hpk het with ⟨i, rest, hf, hcl⟩
  rcases filter_head_mono hle hf with ⟨r', hf'⟩
  exact ⟨i, r', hf', fun htr st hst => storySafe_mono (hcl htr st hst) hle⟩

theorem createEpic_serverLe (cfg : JiraSettings) (e : EpicData) (s : ServerState) :
    serverLe s (createEpic serverClient cfg e s).st := by
  cases hpk : cfg.project_key with
  | none => simpa [createEpic, hpk] using serverLe_refl s
  | some pk =>
    cases het : cfg.epic_type_id with
    | none => simpa [createEpic, hpk, het] using serverLe_refl s
    | some et =>
      cases hf : s.issues.filter (matchesQuery ⟨pk, et, e.summary⟩) with
      | cons i t => simpa [createEpic, serverClient, hpk, het, hf] using serverLe_refl s
      | nil =>
        simp [createEpic, serverClient, hpk, het, hf]
        exact ⟨[⟨freshKey s.nextId, pk, et, e.summary⟩], rfl⟩

theorem createStory_serverLe (cfg : JiraSettings) (st : StoryData) (ek : Option String)
    (s : ServerState) : serverLe s (createStory serverClient cfg st ek s).st := by
  cases hpk : cfg.project_key with
  | none => simpa [createStory, hpk] using serverLe_refl s
  | some pk =>
    cases hst : cfg.story_type_id with
    | none => simpa [createStory, hpk, hst] using serverLe_refl s
    | some stt =>
      cases hf : s.issues.filter (matchesQuery ⟨pk, stt, st.summary⟩) with
      | cons i t => simpa [createStory, serverClient, hpk, hst, hf] using serverLe_refl s
      | nil =>
        simp [createStory, serverClient, hpk, hst, hf]
        exact ⟨[⟨freshKey s.nextId, pk, stt, st.summary⟩], rfl⟩

theorem runStories_serverLe (cfg : JiraSettings) (sts : List StoryData)
    (ek : Option String) : ∀ s, serverLe s (runStories serverClient cfg sts ek s).st := by
  induction sts with
  | nil => intro s; simpa [runStories] using serverLe_refl s
  | cons st rest ih =>
    intro s
    have h1 := createStory_serverLe cfg st ek s
    have h2 := ih (createStory serverClient cfg st ek s).st
    simpa [runStories] using serverLe_trans h1 h2

theorem importEpic_serverLe (cfg : JiraSettings) (e : EpicData) (s : ServerState) :
    serverLe s (importEpic serverClient cfg e s).st := by
  cases ht : truthy (createEpic serverClient cfg e s).res with
  | false =>
    have hst : (importEpic serverClient cfg e s).st = (createEpic serverClient cfg e s).st := by
      simp [importEpic, ht]
    rw [hst]
    exact createEpic_serverLe cfg e s
  | true =>
    have hst : (importEpic serverClient cfg e s).st =
        (runStories serverClient cfg (e.stories.getD [])
          (createEpic serverClient cfg e s).res (createEpic serverClient cfg e s).st).st := by
      simp [importEpic, ht]
    rw [hst]
    exact serverLe_trans (createEpic_serverLe cfg e s)
      (runStories_serverLe cfg (e.stories.getD []) _ _)

theorem runEpics_serverLe (cfg : JiraSettings) (es : List EpicData) :
    ∀ s, serverLe s (runEpics serverClient cfg es s).st := by
  induction es with
  | nil => intro s; simpa [runEpics] using serverLe_refl s
  | cons e rest ih =>
    intro s
    have h1 := importEpic_serverLe cfg e s
    have h2 := ih (importEpic serverClient cfg e s).st
    simpa [runEpics] using serverLe_trans h1 h2

theorem createStory_safe (cfg : JiraSettings) (st : StoryData) (ek : Option String)
    (s : ServerState) : storySafe cfg st (createStory serverClient cfg st ek s).st := by
  intro pk stt hpk hst
  cases hf : s.issues.filter (matchesQuery ⟨pk, stt, st.summary⟩) with
  | cons i t => simp [createStory, serverClient, hpk, hst, hf]
  | nil =>
    have hm : matchesQuery ⟨pk, stt, st.summary⟩
        ⟨freshKey s.nextId, pk, stt, st.summary⟩ = true := by
      simp [matchesQuery, strContains_self]
    simp [createStory, serverClient, hpk, hst, hf, List.filter_append, hm]

theorem runStories_safe (cfg : JiraSettings) (sts : List StoryData) (ek : Option String) :
    ∀ s, ∀ st ∈ sts, storySafe cfg st (runStories serverClient cfg sts ek s).st := by
  induction sts with
  | nil => intro s st hst; simp at hst
  | cons st0 rest ih =>
    intro s st hst
    have hstep : (runStories serverClient cfg (st0 :: rest) ek s).st =
        (runStories serverClient cfg rest ek
          (createStory serverClient cfg st0 ek s).st).st := by
      simp [runStories]
    rw [hstep]
    rcases List.mem_cons.mp hst with h | h
    · subst h
      exact storySafe_mono (createStory_safe cfg st ek s)
        (runStories_serverLe cfg rest ek _)
    · exact ih _ st h

theorem importEpic_safe (cfg : JiraSettings) (e : EpicData) (s : ServerState) :
    epicSafe cfg e (importEpic serverClient cfg e s).st := by
  intro pk et hpk het
  cases hf : s.issues.filter (matchesQuery ⟨pk, et, e.summary⟩) with
  | cons i t =>
    have hce : createEpic serverClient cfg e s =
        ⟨some i.key, s, [Call.search ⟨pk, et, e.summary⟩], [LogEvent.foundEpic i.key]⟩ := by
      simp [createEpic, serverClient, hpk, het, hf]
    cases ht : truthy (some i.key) with
    | false =>
      have hst : (importEpic serverClient cfg e s).st = s := by
        simp [importEpic, hce, ht]
      rw [hst]
      exact ⟨i, t, hf, by simp [ht]⟩
    | true =>
      have hst : (importEpic serverClient cfg e s).st =
          (runStories serverClient cfg (e.stories.getD []) (some i.key) s).st := by
        simp [importEpic, hce, ht]
      rw [hst]
      rcases filter_head_mono (runStories_serverLe cfg (e.stories.getD []) (some i.key) s)
        hf with ⟨r', hf'⟩
      exact ⟨i, r', hf',
        fun htr st hstm => runStories_safe cfg (e.stories.getD []) (some i.key) s st hstm⟩
  | nil =>
    have hm : matchesQuery ⟨pk, et, e.summary⟩
        ⟨freshKey s.nextId, pk, et, e.summary⟩ = true := by
      simp [matchesQuery, strContains_self]
    have hce : createEpic serverClient cfg e s =
        ⟨some (freshKey s.nextId),
          ⟨s.issues ++ [⟨freshKey s.nextId, pk, et, e.summary⟩], s.nextId + 1⟩,
          [Call.search ⟨pk, et, e.summary⟩,
            Call.create ⟨pk, e.summary, e.description.getD "", et, none⟩],
          [LogEvent.createdEpic (freshKey s.nextId)]⟩ := by
      simp [createEpic, serverClient, hpk, het, hf]
    have hs2 : (⟨s.issues ++ [⟨freshKey s.nextId, pk, et, e.summary⟩], s.nextId + 1⟩ :
        ServerState).issues.filter (matchesQuery ⟨pk, et, e.summary⟩) =
        [⟨freshKey s.nextId, pk, et, e.summary⟩] := by
      simp [List.filter_append, hf, hm]
    cases ht : truthy (some (freshKey s.nextId)) with
    | false =>
      have hst : (importEpic serverClient cfg e s).st =
          ⟨s.issues ++ [⟨freshKey s.nextId, pk, et, e.summary⟩], s.nextId + 1⟩ := by
        simp [importEpic, hce, ht]
      rw [hst]
      exact ⟨⟨freshKey s.nextId, pk, et, e.summary⟩, [], hs2, by simp [ht]⟩
    | true =>
      have hst : (importEpic serverClient cfg e s).st =
          (runStories serverClient cfg (e.stories.getD []) (some (freshKey s.nextId))
            ⟨s.issues ++ [⟨freshKey s.nextId, pk, et, e.summary⟩], s.nextId + 1⟩).st := by
        simp [importEpic, hce, ht]
      rw [hst]
      rcases filter_head_mono
        (runStories_serverLe cfg (e.stories.getD []) (some (freshKey s.nextId)) _) hs2
        with ⟨r', hf'⟩
      exact ⟨⟨freshKey s.nextId, pk, et, e.summary⟩, r', hf',
        fun htr st hstm =>
          runStories_safe cfg (e.stories.getD []) (some (freshKey s.nextId)) _ st hstm⟩

theorem runEpics_safe (cfg : JiraSettings) (es : List EpicData) :
    ∀ s, ∀ e ∈ es, epicSafe cfg e (runEpics serverClient cfg es s).st := by
  induction es with
  | nil => intro s e he; simp at he
  | cons e0 rest ih =>
    intro s e he
    have hstep : (runEpics serverClient cfg (e0 :: rest) s).st =
        (runEpics serverClient cfg rest (importEpic serverClient cfg e0 s).st).st := by
      simp [runEpics]
    rw [hstep]
    rcases List.mem_cons.mp he with h | h
    · subst h
      exact epicSafe_mono (importEpic_safe cfg e s) (runEpics_serverLe cfg rest _)
    · exact ih _ e h

theorem createStory_no_create (cfg : JiraSettings) (st : StoryData) (ek : Option String)
    (s : ServerState) (h : storySafe cfg st s) :
    (createStory serverClient cfg st ek s).st = s ∧
    (createStory serverClient cfg st ek s).calls.filter isCreate = [] := by
  cases hpk : cfg.project_key with
  | none => simp [createStory, hpk]
  | some pk =>
    cases hst : cfg.story_type_id with
    | none => simp [createStory, hpk, hst]
    | some stt =>
      cases hf : s.issues.filter (matchesQuery ⟨pk, stt, st.summary⟩) with
      | nil => exact absurd hf (h pk stt hpk hst)
      | cons i t => simp [createStory, serverClient, hpk, hst, hf, isCreate]

theorem runStories_no_create (cfg : JiraSettings) (sts : List StoryData)
    (ek : Option String) :
    ∀ s, (∀ st ∈ sts, storySafe cfg st s) →
      (runStories serverClient cfg sts ek s).st = s ∧
      (runStories serverClient cfg sts ek s).calls.filter isCreate = [] := by
  induction sts with
  | nil => intro s h; simp [runStories]
  | cons st0 rest ih =>
    intro s h
    have h0 := createStory_no_create cfg st0 ek s (h st0 (by simp))
    have hrest := ih s (fun st hst => h st (by simp [hst]))
    refine ⟨?_, ?_⟩
    · simp [runStories, h0.1, hrest.1]
    · simp [runStories, List.filter_append, h0.1, h0.2, hrest.2]

theorem importEpic_no_create (cfg : JiraSettings) (e : EpicData) (s : ServerState)
    (h : epicSafe cfg e s) :
    (importEpic serverClient cfg e s).st = s ∧
    (importEpic serverClient cfg e s).calls.filter isCreate = [] := by
  cases hpk : cfg.project_key with
  | none =>
    have hce : createEpic serverClient cfg e s = ⟨none, s, [], [LogEvent.epicError]⟩ := by
      simp [createEpic, hpk]
    simp [importEpic, hce, truthy]
  | some pk =>
    cases het : cfg.epic_type_id with
    | none =>
      have hce : createEpic serverClient cfg e s = ⟨none, s, [], [LogEvent.epicError]⟩ := by
        cases hpk2 : cfg.project_key <;> simp [createEpic, hpk2, het]
      simp [importEpic, hce, truthy]
    | some et =>
      rcases h pk et hpk het with ⟨i, rest, hf, hcl⟩
      have hce : createEpic serverClient cfg e s =
          ⟨some i.key, s, [Call.search ⟨pk, et, e.summary⟩], [LogEvent.foundEpic i.key]⟩ := by
        simp [createEpic, serverClient, hpk, het, hf]
      cases ht : truthy (some i.key) with
      | false => simp [importEpic, hce, ht, isCreate]
      | true =>
        have hsts := runStories_no_create cfg (e.stories.getD []) (some i.key) s
          (fun st hst => hcl ht st hst)
        refine ⟨?_, ?_⟩
        · simp [importEpic, hce, ht, hsts.1]
        · simp [importEpic, hce, ht, List.filter_append, isCreate, hsts.2]

theorem runEpics_no_create (cfg : JiraSettings) (es : List EpicData) :
    ∀ s, (∀ e ∈ es, epicSafe cfg e s) →
      (runEpics serverClient cfg es s).st = s ∧
      (runEpics serverClient cfg es s).calls.filter isCreate = [] := by
  induction es with
  | nil => intro s h; simp [runEpics]
  | cons e0 rest ih =>
    intro s h
    have h0 := importEpic_no_create cfg e0 s (h e0 (by simp))
    have hrest := ih s (fun e he => h e (by simp [he]))
    refine ⟨?_, ?_⟩
    · simp [runEpics, h0.1, hrest.1]
    · simp [runEpics, List.filter_append, h0.1, h0.2, hrest.2]

/-- C1: importing the same stories document twice against the server model
is idempotent: the second run issues zero create_issue calls, because each
of its dedup searches finds the issue the first run either found or
created (created issues are searchable by project, type id and summary
substring, and a summary contains itself). -/
theorem import_idempotent (cfg : JiraSettings) (doc : StoriesDoc) (s0 : ServerState) :
    ((importStories serverClient cfg doc
        (importStories serverClient cfg doc s0).st).calls.filter isCreate) = [] := by
  have hsafe : ∀ e ∈ doc.epics.getD [],
      epicSafe cfg e (runEpics serverClient cfg (doc.epics.getD []) s0).st :=
    runEpics_safe cfg (doc.epics.getD []) s0
  have hrun := runEpics_no_create cfg (doc.epics.getD [])
    ((runEpics serverClient cfg (doc.epics.getD []) s0).st) hsafe
  simpa [importStories] using hrun.2
